import Mathlib

/-!
Verification development for the FlameGuard fire-detection backend.

The subject is the detection-request pipeline implemented in
`backend/app/api/predict_fire/router.py`: filename validation, staging of
the uploaded bytes under a fresh random name, YOLO inference, outcome
classification, conditional artifact publication, detection-log
persistence, and the response/cleanup contract.

Strings that the Python code manipulates character-by-character
(filenames, extensions, generated names) are embedded as `List Char`;
fixed message strings (HTTP details, log lines) stay as `String`.
Python `str.lower` is embedded as ASCII `Char.toLower`, which agrees with
Python on every character relevant to the extension allow-set.
-/

namespace FlameGuard

/-! ### Validator, from `allowed_file` (router.py lines 60-65) -/

/-- `ALLOWED_EXTENSIONS = {"jpg", "jpeg", "png"}` (router.py line 49). -/
def ALLOWED_EXTENSIONS : List (List Char) :=
  ["jpg".toList, "jpeg".toList, "png".toList]

/-- The characters after the last dot: Python `filename.rsplit(".", 1)[1]`,
meaningful when a dot is present (the code guards with `"." in filename`). -/
def rsplitDotLast (s : List Char) : List Char :=
  (s.reverse.takeWhile (fun c => c != '.')).reverse

/-- `allowed_file` (router.py line 65):
`"." in filename and filename.rsplit(".", 1)[1].lower() in ALLOWED_EXTENSIONS`. -/
def allowed_file (filename : List Char) : Bool :=
  filename.contains '.' &&
    ALLOWED_EXTENSIONS.contains ((rsplitDotLast filename).map Char.toLower)

/-- Python dynamic semantics of calling `allowed_file` on
`file.filename : Optional[str]`: on `None` the expression
`"." in filename` raises `TypeError`; on a string the function totally
returns a boolean. -/
def allowed_file_dyn : Option (List Char) → Except String Bool
  | none => .error "TypeError: argument of type NoneType is not iterable"
  | some fn => .ok (allowed_file fn)

/-! ### Staging-name generator, from `generate_random_file_name`
(router.py lines 68-75), with `os.path.splitext` embedded with POSIX
semantics (sep `/`, no altsep): the extension starts at the last dot,
unless every character between the last path separator and that dot is
itself a dot (e.g. `.bashrc` has no extension). -/

/-- Python `p.rfind(c)`: index of the last occurrence, `-1` if absent. -/
def rfindIdx (c : Char) (p : List Char) : Int :=
  match p.reverse.findIdx? (fun x => x == c) with
  | none => -1
  | some i => (p.length : Int) - 1 - (i : Int)

/-- `os.path.splitext` (POSIX `genericpath._splitext`). -/
def splitext (p : List Char) : List Char × List Char :=
  let sepIndex := rfindIdx '/' p
  let dotIndex := rfindIdx '.' p
  if sepIndex < dotIndex then
    let start := (sepIndex + 1).toNat
    let mid := (p.drop start).take (dotIndex.toNat - start)
    if mid.any (fun c => c != '.') then
      (p.take dotIndex.toNat, p.drop dotIndex.toNat)
    else (p, [])
  else (p, [])

/-- `generate_random_file_name` (router.py lines 68-75): renders a fresh
`uuid.uuid4()` and appends the original extension. The rendered UUID is
passed in as the randomness oracle `uuidStr`; distinct draws of the
128-bit UUID render to distinct strings. -/
def generate_random_file_name (uuidStr : List Char) (filename : List Char) :
    List Char :=
  uuidStr ++ (splitext filename).2

/-- Modelled from the spec: "the substring after the last dot", `none`
when the filename contains no dot. Spec-side formulation used for the
refinement claim about `allowed_file`, computed by direct recursion
rather than by the code's `rsplit`. -/
def extAfterLastDot : List Char → Option (List Char)
  | [] => none
  | c :: rest =>
    match extAfterLastDot rest with
    | some e => some e
    | none => if c = '.' then some rest else none

/-! ### Pipeline data model, from router.py 78-216

The handler is embedded as a function of an environment `Env` describing
the request and the outcomes of the external effects it performs (disk
save, YOLO model load, inference, `cv2.imwrite`, DB insert, the rendered
`uuid4`, the formatted timestamp), together with a `World` recording the
durable side effects (directories made, staged temp files, published
artifact files, DB log rows, the server-side log, and how many times
inference was invoked). Failure outcomes carry the Python exception text
`str(e)`, which the code interpolates only into server-side log lines. -/

/-- The loaded YOLO model: `model.names` maps a class index to its label. -/
structure Model where
  names : Nat → String

/-- One raw detection box from the engine (`box.cls`, `box.conf`,
`box.xyxy[0].tolist()`). Numeric fields are embedded as rationals; no
claim depends on float rounding. -/
structure Box where
  cls : Nat
  conf : Rat
  xyxy : List Rat
deriving DecidableEq

/-- The `Detection` response/DB schema record (schema.py). -/
structure Detection where
  class_name : String
  confidence : Rat
  bbox : List Rat
deriving DecidableEq

/-- The `resResult` payload dict (router.py 174-193), also the data handed
to `create_detection_log`. -/
structure ResPayload where
  message : String
  file_name : Option (List Char)
  detections : List Detection
  result_image : Option (List Char)
  date : String
deriving DecidableEq

/-- What the client receives: a 2xx JSON payload, an `HTTPException`
(status + detail), or an exception that escapes the handler unhandled. -/
inductive Response where
  | success (payload : ResPayload)
  | httpError (status : Nat) (detail : String)
  | unhandled (exc : String)
deriving DecidableEq

/-- Outcome of the staging write (router.py 106-113): `open` may fail
before the file exists, `shutil.copyfileobj` may fail after it was
created; both raise `IOError`, which the code catches. -/
inductive SaveOutcome where
  | ok
  | failAtOpen (e : String)
  | failAtCopy (e : String)
deriving DecidableEq

/-- One request environment: the request data plus the outcome of each
external effect, in program order. -/
structure Env where
  filename : Option (List Char)
  uuid : List Char
  save : SaveOutcome
  modelLoad : Except String Model
  inference : Except String (List Box)
  imwrite : Except String Unit
  dbWrite : Except String Unit
  date : String

/-- Durable and observable server-side state threaded through one request. -/
structure World where
  dirs : List String
  tempFiles : List (List Char)
  logFiles : List (List Char)
  logRows : List ResPayload
  serverLog : List String
  inferenceCalls : Nat
deriving DecidableEq

def emptyWorld : World :=
  { dirs := [], tempFiles := [], logFiles := [], logRows := [],
    serverLog := [], inferenceCalls := 0 }

/-- `os.makedirs(d, exist_ok=True)`. -/
def makedirs (d : String) (w : World) : World :=
  if d ∈ w.dirs then w else { w with dirs := w.dirs ++ [d] }

/-- `logger.info` / `logger.error`: appends one server-side log line. -/
def logLine (s : String) (w : World) : World :=
  { w with serverLog := w.serverLog ++ [s] }

/-- Rendering of `file.filename` inside the f-string at router.py line 89. -/
def showFilename : Option (List Char) → String
  | none => "None"
  | some fn => String.mk fn

/-- The detection records built by the loop at router.py 142-149:
`class_name = model.names[int(box.cls)]`, confidence and bbox copied. -/
def mkDetections (m : Model) (boxes : List Box) : List Detection :=
  boxes.map (fun b =>
    { class_name := m.names b.cls, confidence := b.conf, bbox := b.xyxy })

/-- The `fire_detected` flag of the loop at router.py 139-152: starts
`False`, set `True` whenever a box's class name is `"fire"`. -/
def classify_fire (m : Model) (boxes : List Box) : Bool :=
  boxes.foldl (fun acc b => if m.names b.cls = "fire" then true else acc) false

/-- The body of the `try` block at router.py 125-205: inference, result
normalization, log-directory creation, conditional artifact write, DB
insert; `except Exception` converts any failure to a 500 with the fixed
detail `"failed to process image."`, logging the cause. -/
def inferencePhase (env : Env) (m : Model) (fn new_file_name : List Char)
    (w : World) : Response × World :=
  let w := { w with inferenceCalls := w.inferenceCalls + 1 }
  match env.inference with
  | .error e =>
    (.httpError 500 "failed to process image.",
     logLine ("error occurred while processing image: " ++ e) w)
  | .ok boxes =>
    let detections := mkDetections m boxes
    let fire_detected := classify_fire m boxes
    let w := makedirs "log" w
    if fire_detected then
      match env.imwrite with
      | .error e =>
        (.httpError 500 "failed to process image.",
         logLine ("error occurred while processing image: " ++ e) w)
      | .ok _ =>
        let w := { w with logFiles := w.logFiles ++ [new_file_name] }
        let res : ResPayload :=
          { message := "fire detected", file_name := some fn,
            detections := detections, result_image := some new_file_name,
            date := env.date }
        match env.dbWrite with
        | .error e =>
          (.httpError 500 "failed to process image.",
           logLine ("error occurred while processing image: " ++ e) w)
        | .ok _ => (.success res, { w with logRows := w.logRows ++ [res] })
    else
      let res : ResPayload :=
        { message := "safe", file_name := none, detections := detections,
          result_image := none, date := env.date }
      match env.dbWrite with
      | .error e =>
        (.httpError 500 "failed to process image.",
         logLine ("error occurred while processing image: " ++ e) w)
      | .ok _ => (.success res, { w with logRows := w.logRows ++ [res] })

/-- The `finally` block at router.py 207-216: it belongs to the inference
`try` only, and its body is a single `logger.info` — the file-removal
code below it is commented out. -/
def finallyCleanup (w : World) : World :=
  logLine "Cleaning up temporary files." w

/-- The `predict_fire` handler (router.py 78-216). Stages in order:
initial info logs; filename validation (`TypeError` escapes unhandled
when `file.filename` is `None`); 422 on rejection; staging-name
generation and `temp` directory creation; upload save (IOError → 500
`"failed to save file."`); model load (→ 500 `"failed to load model."`);
then the inference `try` block followed by its `finally`. -/
def predict_fire (env : Env) (w0 : World) : Response × World :=
  let w := logLine "--------------------------------" w0
  let w := logLine ("Received file: " ++ showFilename env.filename) w
  match env.filename with
  | none =>
    (.unhandled "TypeError: argument of type NoneType is not iterable", w)
  | some fn =>
    if allowed_file fn then
      let new_file_name := generate_random_file_name env.uuid fn
      let w := makedirs "temp" w
      match env.save with
      | .failAtOpen e =>
        (.httpError 500 "failed to save file.",
         logLine ("error occurred while saving file: " ++ e) w)
      | .failAtCopy e =>
        let w := { w with tempFiles := w.tempFiles ++ [new_file_name] }
        (.httpError 500 "failed to save file.",
         logLine ("error occurred while saving file: " ++ e) w)
      | .ok =>
        let w := { w with tempFiles := w.tempFiles ++ [new_file_name] }
        match env.modelLoad with
        | .error e =>
          (.httpError 500 "failed to load model.",
           logLine ("error occurred while loading model: " ++ e) w)
        | .ok m =>
          let w := logLine "model loaded successfully." w
          let pr := inferencePhase env m fn new_file_name w
          (pr.1, finallyCleanup pr.2)
    else
      (.httpError 422
        "unsupported file format. only jpg, jpeg or png are allowed.", w)

/-! ### Concrete runs used by witnesses and counterexamples -/

/-- A model whose class 0 is `"fire"` and every other class `"smoke"`,
used by concrete runs. -/
def fireModel : Model :=
  { names := fun n => if n = 0 then "fire" else "smoke" }

/-- A request that ends as a fire success: valid filename, all effects
succeed, one class-0 box detected. -/
def envFireSuccess : Env :=
  { filename := some "a.jpg".toList, uuid := "u1".toList, save := .ok,
    modelLoad := .ok fireModel,
    inference := .ok [{ cls := 0, conf := 1, xyxy := [] }],
    imwrite := .ok (), dbWrite := .ok (), date := "d" }

/-- The payload produced by `envFireSuccess`. -/
def payloadFireSuccess : ResPayload :=
  { message := "fire detected", file_name := some "a.jpg".toList,
    detections := [{ class_name := "fire", confidence := 1, bbox := [] }],
    result_image := some "u1.jpg".toList, date := "d" }

/-- A fire request in which every effect up to and including the artifact
write succeeds but the DB log insert fails. -/
def envFireDbFail : Env :=
  { filename := some "a.jpg".toList, uuid := "u1".toList, save := .ok,
    modelLoad := .ok fireModel,
    inference := .ok [{ cls := 0, conf := 1, xyxy := [] }],
    imwrite := .ok (), dbWrite := .error "db connection lost", date := "d" }

/-- A request that ends as a safe success: valid filename, all effects
succeed, no boxes detected. -/
def envSafeSuccess : Env :=
  { filename := some "a.jpg".toList, uuid := "u1".toList, save := .ok,
    modelLoad := .ok fireModel, inference := .ok [],
    imwrite := .ok (), dbWrite := .ok (), date := "d" }

/-- A request whose staging write fails at `open` with exception text
`"disk full"`. -/
def envSaveFail : Env :=
  { filename := some "a.jpg".toList, uuid := "u".toList,
    save := .failAtOpen "disk full", modelLoad := .ok fireModel,
    inference := .ok [], imwrite := .ok (), dbWrite := .ok (), date := "d" }

/-- A request whose uploaded file carries no filename. -/
def envNoFilename : Env :=
  { filename := none, uuid := "u".toList, save := .ok,
    modelLoad := .ok fireModel, inference := .ok [], imwrite := .ok (),
    dbWrite := .ok (), date := "d" }

/-- A request with the rejected filename `doc.pdf`. -/
def envRejected : Env :=
  { filename := some "doc.pdf".toList, uuid := "u".toList, save := .ok,
    modelLoad := .ok fireModel, inference := .ok [], imwrite := .ok (),
    dbWrite := .ok (), date := "d" }

/-! ### Helper lemmas relating the validator formulations -/

theorem extAfterLastDot_eq_none_iff (s : List Char) :
    extAfterLastDot s = none ↔ '.' ∉ s := by
  induction s with
  | nil => simp [extAfterLastDot]
  | cons c rest ih =>
    cases h : extAfterLastDot rest with
    | some e =>
      have hr : '.' ∈ rest := by
        by_contra hn
        rw [ih.mpr hn] at h
        exact Option.noConfusion h
      constructor
      · intro habs
        rw [extAfterLastDot, h] at habs
        exact Option.noConfusion habs
      · intro habs
        exact absurd (List.mem_cons_of_mem c hr) habs
    | none =>
      have hr : '.' ∉ rest := ih.mp h
      by_cases hc : c = '.'
      · constructor
        · intro habs
          rw [extAfterLastDot, h, if_pos hc] at habs
          exact Option.noConfusion habs
        · intro habs
          exact absurd (by simp [hc]) habs
      · constructor
        · intro _
          intro hmem
          rcases List.mem_cons.mp hmem with h1 | h2
          · exact hc h1.symm
          · exact hr h2
        · intro _
          rw [extAfterLastDot, h, if_neg hc]

theorem takeWhile_length_ne_of_dot {l : List Char} (h : '.' ∈ l) :
    ¬ ((l.takeWhile (fun c => c != '.')).length = l.length) := by
  intro hlen
  have hpre : l.takeWhile (fun c => c != '.') <+: l := List.takeWhile_prefix _
  have heq : l.takeWhile (fun c => c != '.') = l := hpre.eq_of_length hlen
  have hall := List.takeWhile_eq_self_iff.mp heq '.' h
  simp at hall

theorem takeWhile_eq_self_of_no_dot {l : List Char} (h : '.' ∉ l) :
    l.takeWhile (fun c => c != '.') = l := by
  refine List.takeWhile_eq_self_iff.mpr ?_
  intro x hx
  simp only [bne_iff_ne, ne_eq]
  intro hxe
  exact h (hxe ▸ hx)

theorem rsplitDotLast_cons_of_mem {rest : List Char} (c : Char)
    (h : '.' ∈ rest) : rsplitDotLast (c :: rest) = rsplitDotLast rest := by
  unfold rsplitDotLast
  have hmem : '.' ∈ rest.reverse := by simpa using h
  rw [List.reverse_cons, List.takeWhile_append,
    if_neg (takeWhile_length_ne_of_dot hmem)]

theorem extAfterLastDot_eq_rsplit {s : List Char} (h : '.' ∈ s) :
    extAfterLastDot s = some (rsplitDotLast s) := by
  induction s with
  | nil => simp at h
  | cons c rest ih =>
    by_cases hr : '.' ∈ rest
    · have hsome := ih hr
      simp only [extAfterLastDot, hsome]
      rw [rsplitDotLast_cons_of_mem c hr]
    · have hnone : extAfterLastDot rest = none :=
        (extAfterLastDot_eq_none_iff rest).mpr hr
      have hc : c = '.' := by
        rcases List.mem_cons.mp h with h1 | h2
        · exact h1.symm
        · exact absurd h2 hr
      subst hc
      have hmem : '.' ∉ rest.reverse := by simpa using hr
      have h1 : rsplitDotLast ('.' :: rest) = rest := by
        unfold rsplitDotLast
        rw [List.reverse_cons, List.takeWhile_append,
          if_pos (by rw [takeWhile_eq_self_of_no_dot hmem])]
        simp
      rw [h1, extAfterLastDot, hnone]
      simp

/-! ### Shared helper lemmas about the pipeline -/

theorem allowed_file_eq_true_iff (fn : List Char) :
    allowed_file fn = true ↔
      ('.' ∈ fn ∧ (rsplitDotLast fn).map Char.toLower ∈ ALLOWED_EXTENSIONS) := by
  unfold allowed_file
  simp

theorem classify_fire_foldl (m : Model) (boxes : List Box) (acc : Bool) :
    boxes.foldl (fun acc b => if m.names b.cls = "fire" then true else acc) acc
      = (acc || boxes.any (fun b => m.names b.cls == "fire")) := by
  induction boxes generalizing acc with
  | nil => simp
  | cons b rest ih =>
    simp only [List.foldl_cons, List.any_cons, ih]
    by_cases h : m.names b.cls = "fire"
    · simp [h]
    · have hb : (m.names b.cls == "fire") = false := by simpa using h
      simp [h, hb]

theorem classify_fire_iff (m : Model) (boxes : List Box) :
    classify_fire m boxes = true ↔ ∃ b ∈ boxes, m.names b.cls = "fire" := by
  unfold classify_fire
  rw [classify_fire_foldl]
  simp

theorem exists_fire_detection_iff (m : Model) (boxes : List Box) :
    (∃ d ∈ mkDetections m boxes, d.class_name = "fire")
      ↔ ∃ b ∈ boxes, m.names b.cls = "fire" := by
  unfold mkDetections
  simp

theorem makedirs_tempFiles (d : String) (w : World) :
    (makedirs d w).tempFiles = w.tempFiles := by
  unfold makedirs
  split <;> rfl

theorem makedirs_logFiles (d : String) (w : World) :
    (makedirs d w).logFiles = w.logFiles := by
  unfold makedirs
  split <;> rfl

theorem makedirs_logRows (d : String) (w : World) :
    (makedirs d w).logRows = w.logRows := by
  unfold makedirs
  split <;> rfl

theorem makedirs_serverLog (d : String) (w : World) :
    (makedirs d w).serverLog = w.serverLog := by
  unfold makedirs
  split <;> rfl

theorem makedirs_inferenceCalls (d : String) (w : World) :
    (makedirs d w).inferenceCalls = w.inferenceCalls := by
  unfold makedirs
  split <;> rfl

theorem mem_makedirs_self (d : String) (w : World) :
    d ∈ (makedirs d w).dirs := by
  unfold makedirs
  split
  · assumption
  · simp

theorem mem_makedirs_of_mem {x : String} (d : String) (w : World)
    (h : x ∈ w.dirs) : x ∈ (makedirs d w).dirs := by
  unfold makedirs
  split
  · exact h
  · simp [h]

theorem inferencePhase_tempFiles (env : Env) (m : Model)
    (fn nf : List Char) (w : World) :
    ((inferencePhase env m fn nf w).2).tempFiles = w.tempFiles := by
  unfold inferencePhase
  cases hinf : env.inference with
  | error e => simp [logLine]
  | ok boxes =>
    cases hfire : classify_fire m boxes <;>
      cases himw : env.imwrite <;>
      cases hdb : env.dbWrite <;>
        simp [hfire, himw, hdb, logLine, makedirs_tempFiles]

/-! ### Claims -/

/-- C1 counterexample: with a successful inference, a fire detection, a
successful artifact write and a failing DB log insert, the client does
get a 500, but the published artifact remains on disk while zero log
rows exist — refuting "either both artifact and log row exist or
neither does". -/
theorem C1_counterexample :
    (predict_fire envFireDbFail emptyWorld).1 =
      .httpError 500 "failed to process image." ∧
    "u1.jpg".toList ∈ (predict_fire envFireDbFail emptyWorld).2.logFiles ∧
    (predict_fire envFireDbFail emptyWorld).2.logRows = [] := by
  refine ⟨by decide, by decide, by decide⟩

/-- C1 amended: if the persistent log write fails after a successful
inference, the client receives a 500 and no log row is recorded (so the
log never references an artifact that failed to write), but on the fire
path the already-published artifact image remains with zero log rows
referencing it. -/
theorem C1_amended_db_failure (env : Env) (w : World) (fn : List Char)
    (m : Model) (boxes : List Box) (e : String)
    (hfn : env.filename = some fn) (hal : allowed_file fn = true)
    (hsave : env.save = .ok) (hm : env.modelLoad = .ok m)
    (hinf : env.inference = .ok boxes) (himw : env.imwrite = .ok ())
    (hdb : env.dbWrite = .error e) :
    (predict_fire env w).1 = .httpError 500 "failed to process image." ∧
    (predict_fire env w).2.logRows = w.logRows ∧
    (classify_fire m boxes = true →
      generate_random_file_name env.uuid fn ∈
        (predict_fire env w).2.logFiles) := by
  refine ⟨?_, ?_, fun hfire => ?_⟩
  · unfold predict_fire
    rw [hfn]
    cases hfire : classify_fire m boxes <;>
      simp [hal, hsave, hm, inferencePhase, hinf, hfire, himw, hdb,
        finallyCleanup, logLine]
  · unfold predict_fire
    rw [hfn]
    cases hfire : classify_fire m boxes <;>
      simp [hal, hsave, hm, inferencePhase, hinf, hfire, himw, hdb,
        finallyCleanup, logLine, makedirs_logRows]
  · unfold predict_fire
    rw [hfn]
    simp [hal, hsave, hm, inferencePhase, hinf, hfire, himw, hdb,
      finallyCleanup, logLine, makedirs_logFiles]

/-- Witness for the amended C1 at the concrete fire run with a failing
DB insert. -/
theorem C1_amended_db_failure_witness :
    (predict_fire envFireDbFail emptyWorld).1 =
      .httpError 500 "failed to process image." ∧
    (predict_fire envFireDbFail emptyWorld).2.logRows =
      emptyWorld.logRows ∧
    generate_random_file_name envFireDbFail.uuid "a.jpg".toList ∈
      (predict_fire envFireDbFail emptyWorld).2.logFiles := by
  have h := C1_amended_db_failure envFireDbFail emptyWorld "a.jpg".toList
    fireModel [{ cls := 0, conf := 1, xyxy := [] }] "db connection lost"
    rfl (by decide) rfl rfl rfl rfl rfl
  exact ⟨h.1, h.2.1, h.2.2 (by decide)⟩

/-- C2 counterexample: a fully successful safe run completes with the
cleanup step having run (it is the last server-log line), yet the staged
temporary file is still present afterward — no removal was attempted,
refuting "a cleanup step ... attempts best-effort removal of the staged
temporary file". -/
theorem C2_counterexample :
    (predict_fire envSafeSuccess emptyWorld).1 = .success
      { message := "safe", file_name := none, detections := [],
        result_image := none, date := "d" } ∧
    "u1.jpg".toList ∈ (predict_fire envSafeSuccess emptyWorld).2.tempFiles ∧
    (predict_fire envSafeSuccess emptyWorld).2.serverLog.getLast? =
      some "Cleaning up temporary files." := by
  refine ⟨by decide, by decide, by decide⟩

/-- C2 amended: for every invocation that reaches the inference `try`
block (staging and model load succeeded), a cleanup step runs
unconditionally as the final action, but it only logs a message; the
staged temporary file is never removed and persists, and the cleanup is
applied to the world only after the response is decided, so it cannot
change the response. Invocations failing before the `try` block run no
cleanup step. -/
theorem C2_amended_cleanup (env : Env) (w : World) (fn : List Char)
    (m : Model)
    (hfn : env.filename = some fn) (hal : allowed_file fn = true)
    (hsave : env.save = .ok) (hm : env.modelLoad = .ok m) :
    generate_random_file_name env.uuid fn ∈
      (predict_fire env w).2.tempFiles ∧
    (predict_fire env w).2.serverLog.getLast? =
      some "Cleaning up temporary files." ∧
    (∃ w1, predict_fire env w =
      ((inferencePhase env m fn (generate_random_file_name env.uuid fn) w1).1,
       finallyCleanup
         (inferencePhase env m fn
           (generate_random_file_name env.uuid fn) w1).2)) := by
  refine ⟨?_, ?_, ?_⟩
  · unfold predict_fire
    rw [hfn]
    simp [hal, hsave, hm, finallyCleanup, logLine, inferencePhase_tempFiles,
      makedirs_tempFiles]
  · unfold predict_fire
    rw [hfn]
    simp [hal, hsave, hm, finallyCleanup, logLine]
  · unfold predict_fire
    rw [hfn]
    simp only [hal, if_true, hsave, hm]
    exact ⟨_, rfl⟩

/-- Witness for the amended C2 at the concrete safe success run. -/
theorem C2_amended_cleanup_witness :
    generate_random_file_name envSafeSuccess.uuid "a.jpg".toList ∈
      (predict_fire envSafeSuccess emptyWorld).2.tempFiles ∧
    (predict_fire envSafeSuccess emptyWorld).2.serverLog.getLast? =
      some "Cleaning up temporary files." ∧
    (∃ w1, predict_fire envSafeSuccess emptyWorld =
      ((inferencePhase envSafeSuccess fireModel "a.jpg".toList
          (generate_random_file_name envSafeSuccess.uuid "a.jpg".toList)
          w1).1,
       finallyCleanup
         (inferencePhase envSafeSuccess fireModel "a.jpg".toList
           (generate_random_file_name envSafeSuccess.uuid "a.jpg".toList)
           w1).2)) :=
  C2_amended_cleanup envSafeSuccess emptyWorld "a.jpg".toList fireModel
    rfl (by decide) rfl rfl

/-- C3: for every string filename, `allowed_file` accepts iff the
filename contains a dot and the substring after the last dot,
lower-cased, is one of jpg/jpeg/png; and when it rejects, the handler
answers 422 with the UnsupportedFormat detail. -/
theorem C3_validator (fn : List Char) (env : Env) (w : World) :
    (allowed_file fn = true ↔
      ∃ e, extAfterLastDot fn = some e ∧
        e.map Char.toLower ∈ ALLOWED_EXTENSIONS) ∧
    (env.filename = some fn → allowed_file fn = false →
      (predict_fire env w).1 = .httpError 422
        "unsupported file format. only jpg, jpeg or png are allowed.") := by
  constructor
  · rw [allowed_file_eq_true_iff]
    by_cases hdot : '.' ∈ fn
    · rw [extAfterLastDot_eq_rsplit hdot]
      constructor
      · intro h
        exact ⟨rsplitDotLast fn, rfl, h.2⟩
      · rintro ⟨e, he, hmem⟩
        exact ⟨hdot, by rwa [(Option.some.injEq _ _).mp he]⟩
    · have hnone : extAfterLastDot fn = none :=
        (extAfterLastDot_eq_none_iff fn).mpr hdot
      simp [hdot, hnone]
  · intro hfn hal
    unfold predict_fire
    rw [hfn]
    simp [hal]

/-- Witness for C3 at the concrete rejected filename `doc.pdf`. -/
theorem C3_validator_witness :
    (predict_fire envRejected emptyWorld).1 = .httpError 422
      "unsupported file format. only jpg, jpeg or png are allowed." :=
  (C3_validator "doc.pdf".toList envRejected emptyWorld).2 rfl (by decide)

/-- C4: the classified outcome flag is `fire` iff at least one detection
record has class name `"fire"`; the empty sequence classifies `safe`. -/
theorem C4_classifier (m : Model) (boxes : List Box) :
    (classify_fire m boxes = true ↔
      ∃ d ∈ mkDetections m boxes, d.class_name = "fire") ∧
    classify_fire m [] = false := by
  constructor
  · rw [classify_fire_iff, exists_fire_detection_iff]
  · rfl

/-- C5: every successful response payload satisfies the outcome
invariant: `result_image` is non-null iff the outcome is fire, and a
fire outcome implies a non-empty detections sequence containing a
record with class name `"fire"`. -/
theorem C5_outcome_invariant (env : Env) (w : World) (p : ResPayload)
    (h : (predict_fire env w).1 = .success p) :
    (p.result_image ≠ none ↔ p.message = "fire detected") ∧
    (p.message = "fire detected" →
      p.detections ≠ [] ∧ ∃ d ∈ p.detections, d.class_name = "fire") := by
  unfold predict_fire at h
  cases hfn : env.filename with
  | none => rw [hfn] at h; simp at h
  | some fn =>
    rw [hfn] at h
    simp only [] at h
    cases hal : allowed_file fn with
    | false => rw [hal] at h; simp at h
    | true =>
      rw [hal] at h
      simp only [if_true] at h
      cases hsave : env.save with
      | failAtOpen e => rw [hsave] at h; simp at h
      | failAtCopy e => rw [hsave] at h; simp at h
      | ok =>
        rw [hsave] at h
        simp only [] at h
        cases hm : env.modelLoad with
        | error e => rw [hm] at h; simp at h
        | ok m =>
          rw [hm] at h
          simp only [] at h
          unfold inferencePhase at h
          cases hinf : env.inference with
          | error e => rw [hinf] at h; simp at h
          | ok boxes =>
            rw [hinf] at h
            simp only [] at h
            cases hfire : classify_fire m boxes with
            | true =>
              rw [hfire] at h
              simp only [if_true] at h
              cases himw : env.imwrite with
              | error e => rw [himw] at h; simp at h
              | ok u =>
                rw [himw] at h
                simp only [] at h
                cases hdb : env.dbWrite with
                | error e => rw [hdb] at h; simp at h
                | ok v =>
                  rw [hdb] at h
                  simp only [Response.success.injEq] at h
                  have hpd : p.detections = mkDetections m boxes := by
                    rw [← h]
                  have hpm : p.message = "fire detected" := by rw [← h]
                  have hpi : p.result_image =
                      some (generate_random_file_name env.uuid fn) := by
                    rw [← h]
                  refine ⟨?_, fun _ => ?_⟩
                  · rw [hpi, hpm]
                    simp
                  · rcases (exists_fire_detection_iff m boxes).mpr
                      ((classify_fire_iff m boxes).mp hfire) with
                      ⟨d, hdmem, hdf⟩
                    rw [hpd]
                    refine ⟨fun hnil => ?_, ⟨d, hdmem, hdf⟩⟩
                    rw [hnil] at hdmem
                    simp at hdmem
            | false =>
              rw [hfire] at h
              simp only [Bool.false_eq_true, if_false] at h
              cases hdb : env.dbWrite with
              | error e => rw [hdb] at h; simp at h
              | ok v =>
                rw [hdb] at h
                simp only [Response.success.injEq] at h
                have hpm : p.message = "safe" := by rw [← h]
                have hpi : p.result_image = none := by rw [← h]
                refine ⟨?_, fun hc => ?_⟩
                · rw [hpi, hpm]
                  simp
                · rw [hpm] at hc
                  exact absurd hc (by decide)

/-- Witness for C5 at the concrete fire success run. -/
theorem C5_outcome_invariant_witness :
    (payloadFireSuccess.result_image ≠ none ↔
      payloadFireSuccess.message = "fire detected") ∧
    (payloadFireSuccess.detections ≠ [] ∧
      ∃ d ∈ payloadFireSuccess.detections, d.class_name = "fire") := by
  have h := C5_outcome_invariant envFireSuccess emptyWorld
    payloadFireSuccess (by decide)
  exact ⟨h.1, h.2 (by decide)⟩

/-- C6: a rejected filename terminates the request with 422 before any
later stage: no directory made, no staged file, no artifact, no log row,
no inference call; and more generally a staging or model-load failure
also prevents every later stage from running. -/
theorem C6_short_circuit (env : Env) (w : World) (fn : List Char)
    (hfn : env.filename = some fn) :
    (allowed_file fn = false →
      (predict_fire env w).1 = .httpError 422
        "unsupported file format. only jpg, jpeg or png are allowed." ∧
      (predict_fire env w).2.dirs = w.dirs ∧
      (predict_fire env w).2.tempFiles = w.tempFiles ∧
      (predict_fire env w).2.logFiles = w.logFiles ∧
      (predict_fire env w).2.logRows = w.logRows ∧
      (predict_fire env w).2.inferenceCalls = w.inferenceCalls) ∧
    (∀ e, allowed_file fn = true →
      (env.save = .failAtOpen e ∨ env.save = .failAtCopy e) →
      (predict_fire env w).2.inferenceCalls = w.inferenceCalls ∧
      (predict_fire env w).2.logFiles = w.logFiles ∧
      (predict_fire env w).2.logRows = w.logRows) ∧
    (∀ e, allowed_file fn = true → env.save = .ok →
      env.modelLoad = .error e →
      (predict_fire env w).2.inferenceCalls = w.inferenceCalls ∧
      (predict_fire env w).2.logFiles = w.logFiles ∧
      (predict_fire env w).2.logRows = w.logRows) := by
  refine ⟨fun hal => ?_, fun e hal hsave => ?_, fun e hal hsave hm => ?_⟩
  · unfold predict_fire
    rw [hfn]
    simp [hal, logLine]
  · unfold predict_fire
    rw [hfn]
    rcases hsave with hs | hs <;>
      simp [hal, hs, logLine, makedirs_tempFiles, makedirs_logFiles,
        makedirs_logRows, makedirs_inferenceCalls]
  · unfold predict_fire
    rw [hfn]
    simp [hal, hsave, hm, logLine, makedirs_tempFiles, makedirs_logFiles,
      makedirs_logRows, makedirs_inferenceCalls]

/-- Witness for C6 at the concrete rejected filename `doc.pdf`. -/
theorem C6_short_circuit_witness :
    (predict_fire envRejected emptyWorld).1 = .httpError 422
      "unsupported file format. only jpg, jpeg or png are allowed." ∧
    (predict_fire envRejected emptyWorld).2.dirs = emptyWorld.dirs ∧
    (predict_fire envRejected emptyWorld).2.tempFiles =
      emptyWorld.tempFiles ∧
    (predict_fire envRejected emptyWorld).2.logFiles =
      emptyWorld.logFiles ∧
    (predict_fire envRejected emptyWorld).2.logRows = emptyWorld.logRows ∧
    (predict_fire envRejected emptyWorld).2.inferenceCalls =
      emptyWorld.inferenceCalls :=
  (C6_short_circuit envRejected emptyWorld "doc.pdf".toList rfl).1
    (by decide)

/-- C7: every staging, model-load, inference, artifact-write or
persistence failure yields a 500 whose detail string is a fixed constant
independent of the underlying exception text, while the exception text
is appended to the server-side log (so two runs failing at the same
stage with different exceptions produce identical responses). -/
theorem C7_opaque_failures (env : Env) (w : World) (fn : List Char)
    (hfn : env.filename = some fn) (hal : allowed_file fn = true) :
    (∀ e, (env.save = .failAtOpen e ∨ env.save = .failAtCopy e) →
      (predict_fire env w).1 = .httpError 500 "failed to save file." ∧
      ("error occurred while saving file: " ++ e) ∈
        (predict_fire env w).2.serverLog) ∧
    (∀ e, env.save = .ok → env.modelLoad = .error e →
      (predict_fire env w).1 = .httpError 500 "failed to load model." ∧
      ("error occurred while loading model: " ++ e) ∈
        (predict_fire env w).2.serverLog) ∧
    (∀ e m, env.save = .ok → env.modelLoad = .ok m →
      env.inference = .error e →
      (predict_fire env w).1 = .httpError 500 "failed to process image." ∧
      ("error occurred while processing image: " ++ e) ∈
        (predict_fire env w).2.serverLog) ∧
    (∀ e m boxes, env.save = .ok → env.modelLoad = .ok m →
      env.inference = .ok boxes → classify_fire m boxes = true →
      env.imwrite = .error e →
      (predict_fire env w).1 = .httpError 500 "failed to process image." ∧
      ("error occurred while processing image: " ++ e) ∈
        (predict_fire env w).2.serverLog) ∧
    (∀ e m boxes, env.save = .ok → env.modelLoad = .ok m →
      env.inference = .ok boxes → env.imwrite = .ok () →
      env.dbWrite = .error e →
      (predict_fire env w).1 = .httpError 500 "failed to process image." ∧
      ("error occurred while processing image: " ++ e) ∈
        (predict_fire env w).2.serverLog) := by
  refine ⟨fun e hs => ?_, fun e hs hm => ?_, fun e m hs hm hinf => ?_,
    fun e m boxes hs hm hinf hfire himw => ?_,
    fun e m boxes hs hm hinf himw hdb => ?_⟩
  · unfold predict_fire
    rw [hfn]
    rcases hs with hs | hs <;> simp [hal, hs, logLine, makedirs_serverLog]
  · unfold predict_fire
    rw [hfn]
    simp [hal, hs, hm, logLine, makedirs_serverLog]
  · unfold predict_fire
    rw [hfn]
    simp [hal, hs, hm, inferencePhase, hinf, finallyCleanup, logLine,
      makedirs_serverLog]
  · unfold predict_fire
    rw [hfn]
    simp [hal, hs, hm, inferencePhase, hinf, hfire, himw, finallyCleanup,
      logLine, makedirs_serverLog]
  · unfold predict_fire
    rw [hfn]
    cases hfire : classify_fire m boxes <;>
      simp [hal, hs, hm, inferencePhase, hinf, hfire, himw, hdb,
        finallyCleanup, logLine, makedirs_serverLog]

/-- Witness for C7 at the concrete staging failure `disk full`. -/
theorem C7_opaque_failures_witness :
    (predict_fire envSaveFail emptyWorld).1 =
      .httpError 500 "failed to save file." ∧
    ("error occurred while saving file: " ++ "disk full") ∈
      (predict_fire envSaveFail emptyWorld).2.serverLog :=
  (C7_opaque_failures envSaveFail emptyWorld "a.jpg".toList rfl
    (by decide)).1 "disk full" (Or.inl rfl)

/-- C8: each call of the staging-name generator appends the original
extension (letter case preserved: `photo.JPG` keeps `.JPG`) to the
rendered fresh 128-bit UUID, so two calls whose UUID draws differ
produce two different names that both end in the original extension. -/
theorem C8_staging_name (u1 u2 fn : List Char) (h : u1 ≠ u2) :
    generate_random_file_name u1 fn ≠ generate_random_file_name u2 fn ∧
    List.IsSuffix (splitext fn).2 (generate_random_file_name u1 fn) ∧
    List.IsSuffix (splitext fn).2 (generate_random_file_name u2 fn) ∧
    (splitext ("photo.JPG".toList)).2 = ".JPG".toList := by
  refine ⟨?_, ⟨u1, rfl⟩, ⟨u2, rfl⟩, by decide⟩
  intro he
  exact h (List.append_cancel_right he)

/-- Witness for C8 at two concrete distinct UUID renderings. -/
theorem C8_staging_name_witness :
    generate_random_file_name "a".toList "photo.JPG".toList ≠
      generate_random_file_name "b".toList "photo.JPG".toList ∧
    List.IsSuffix (splitext "photo.JPG".toList).2
      (generate_random_file_name "a".toList "photo.JPG".toList) ∧
    List.IsSuffix (splitext "photo.JPG".toList).2
      (generate_random_file_name "b".toList "photo.JPG".toList) ∧
    (splitext ("photo.JPG".toList)).2 = ".JPG".toList :=
  C8_staging_name "a".toList "b".toList "photo.JPG".toList (by decide)

/-- C9: the validator is total over strings (it returns a boolean for
every string), but a request whose uploaded file carries no filename
makes `"." in filename` raise `TypeError`, so the handler ends in an
unhandled error rather than any HTTP error response — in particular not
the specified 422 rejection. -/
theorem C9_none_filename (env : Env) (w : World)
    (h : env.filename = none) :
    (∀ s, allowed_file_dyn (some s) = .ok (allowed_file s)) ∧
    allowed_file_dyn none =
      .error "TypeError: argument of type NoneType is not iterable" ∧
    (predict_fire env w).1 =
      .unhandled "TypeError: argument of type NoneType is not iterable" ∧
    (∀ st d, (predict_fire env w).1 ≠ .httpError st d) := by
  have hresp : (predict_fire env w).1 =
      .unhandled "TypeError: argument of type NoneType is not iterable" := by
    unfold predict_fire
    rw [h]
  refine ⟨fun s => rfl, rfl, hresp, fun st d => ?_⟩
  rw [hresp]
  simp

/-- Witness for C9 at the concrete filename-less request. -/
theorem C9_none_filename_witness :
    allowed_file_dyn (some "doc.pdf".toList) =
      .ok (allowed_file "doc.pdf".toList) ∧
    allowed_file_dyn none =
      .error "TypeError: argument of type NoneType is not iterable" ∧
    (predict_fire envNoFilename emptyWorld).1 =
      .unhandled "TypeError: argument of type NoneType is not iterable" ∧
    (predict_fire envNoFilename emptyWorld).1 ≠ .httpError 422
      "unsupported file format. only jpg, jpeg or png are allowed." := by
  have h := C9_none_filename envNoFilename emptyWorld rfl
  exact ⟨h.1 "doc.pdf".toList, h.2.1, h.2.2.1,
    h.2.2.2 422 "unsupported file format. only jpg, jpeg or png are allowed."⟩

/-- C10: every invocation that completes inference creates the
web-servable `log` directory regardless of outcome, and a safe outcome
writes no artifact image file into it. -/
theorem C10_log_dir (env : Env) (w : World) (fn : List Char) (m : Model)
    (boxes : List Box)
    (hfn : env.filename = some fn) (hal : allowed_file fn = true)
    (hsave : env.save = .ok) (hm : env.modelLoad = .ok m)
    (hinf : env.inference = .ok boxes) :
    "log" ∈ (predict_fire env w).2.dirs ∧
    (classify_fire m boxes = false →
      (predict_fire env w).2.logFiles = w.logFiles) := by
  constructor
  · unfold predict_fire
    rw [hfn]
    cases hfire : classify_fire m boxes <;>
      cases himw : env.imwrite <;>
      cases hdb : env.dbWrite <;>
        simp [hal, hsave, hm, inferencePhase, hinf, hfire, himw, hdb,
          finallyCleanup, logLine] <;>
        exact mem_makedirs_self _ _
  · intro hfire
    unfold predict_fire
    rw [hfn]
    cases hdb : env.dbWrite <;>
      simp [hal, hsave, hm, inferencePhase, hinf, hfire, hdb,
        finallyCleanup, logLine, makedirs_logFiles]

/-- Witness for C10 at the concrete safe success run. -/
theorem C10_log_dir_witness :
    "log" ∈ (predict_fire envSafeSuccess emptyWorld).2.dirs ∧
    (predict_fire envSafeSuccess emptyWorld).2.logFiles =
      emptyWorld.logFiles := by
  have h := C10_log_dir envSafeSuccess emptyWorld "a.jpg".toList fireModel
    [] rfl (by decide) rfl rfl rfl
  exact ⟨h.1, h.2 (by decide)⟩

end FlameGuard
